import Mathlib

/-!
Verification development for the model-file download orchestrator
(`aistack/worker/model_file_manager.py`).

The Python code is shallowly embedded: pure computations become Lean
functions over `Nat`/`ℚ`/`String`, record write-backs become explicit
lists of update values, the process-shared cancellation flag and the
external download driver become explicit inputs, and Python exceptions
become `Except` values.
-/

namespace ModelFileManager

/-! ## Python rounding

`round(x, 2)` in Python rounds to two decimal places with ties going to
the nearest even hundredth (banker's rounding).  We model it on `ℚ`.
-/

/-- Round a rational to the nearest integer, ties to even
(Python's `round` with no digits). -/
def rhe (q : ℚ) : ℤ :=
  let f := ⌊q⌋
  if q - f < 1/2 then f
  else if 1/2 < q - f then f + 1
  else if Even f then f else f + 1

/-- Python's `round(q, 2)`: round to the nearest hundredth, ties to even. -/
def pyRound2 (q : ℚ) : ℚ := (rhe (q * 100) : ℚ) / 100

theorem rhe_le_rhe {x y : ℚ} (h : x ≤ y) : rhe x ≤ rhe y := by
  unfold rhe
  have hf : ⌊x⌋ ≤ ⌊y⌋ := Int.floor_mono h
  rcases eq_or_lt_of_le hf with heq | hlt
  · -- same floor: compare the fractional parts
    rw [heq]
    have hxy : x - (⌊y⌋ : ℚ) ≤ y - (⌊y⌋ : ℚ) := by linarith
    simp only
    split_ifs <;> first | omega | (exfalso; linarith)
  · -- ⌊x⌋ < ⌊y⌋ : left side is at most ⌊x⌋+1 ≤ ⌊y⌋, right side is at least ⌊y⌋
    simp only
    split_ifs <;> omega

theorem pyRound2_mono {x y : ℚ} (h : x ≤ y) : pyRound2 x ≤ pyRound2 y := by
  unfold pyRound2
  have h1 : rhe (x * 100) ≤ rhe (y * 100) :=
    rhe_le_rhe (by nlinarith)
  have h2 : ((rhe (x * 100) : ℚ)) ≤ (rhe (y * 100) : ℚ) := by exact_mod_cast h1
  linarith

theorem rhe_intCast (n : ℤ) : rhe (n : ℚ) = n := by
  unfold rhe
  norm_num

theorem pyRound2_hundred : pyRound2 100 = 100 := by
  unfold pyRound2
  have h : ((100:ℚ) * 100) = ((10000:ℤ) : ℚ) := by norm_num
  rw [h, rhe_intCast]
  norm_num

/-- A value at most 100 still is after Python rounding to 2 decimals. -/
theorem pyRound2_le_hundred {x : ℚ} (h : x ≤ 100) : pyRound2 x ≤ 100 := by
  have := pyRound2_mono h
  rwa [pyRound2_hundred] at this

/-! ## Data model

`ModelFileStateEnum` and the fields of `ModelFile` used by the manager
(`aistack/schemas/model_files.py`).  Only the fields the orchestrator
reads are embedded; the `source == ollama_library` test is embedded as
the boolean `sourceIsOllama`.
-/

inductive St where
  | downloading
  | ready
  | error
deriving DecidableEq, Repr

structure ModelFile where
  id : Nat
  workerId : Nat
  state : St
  localDir : Option String
  modelScopeFilePath : Option String
  huggingfaceFilename : Option String
  resolvedPaths : List String
  cleanupOnDelete : Bool
  sourceIsOllama : Bool
  ollamaLibraryModelName : Option String
deriving DecidableEq, Repr

/-- One call to `_update_model_file(id, **kwargs)`: only the keyword
fields actually passed are `some`. -/
structure Upd where
  state : Option St := none
  stateMessage : Option String := none
  downloadProgress : Option ℚ := none
  resolvedPaths : Option (List String) := none
  size : Option Nat := none
deriving DecidableEq, Repr

/-- `_update_model_file` writes neither terminal state nor terminal
detail fields: it only carries progress and/or size. -/
def Upd.progressOnly (u : Upd) : Prop :=
  u.state = none ∧ u.stateMessage = none ∧ u.resolvedPaths = none

instance (u : Upd) : Decidable u.progressOnly := by
  unfold Upd.progressOnly
  infer_instance

/-! ## Progress reporting (`hijack_tqdm_progress._new_update`)

One invocation of the patched `tqdm.update` is a *tick*.  Its inputs
are driver-controlled: the bar's cumulative counter `self.n` after the
original update ran, the wall-clock time, the state of the shared
cancellation flag, and whether the record-store write raises.  The
task-level constants are `_initial_downloaded_size` and
`_model_file_size` (the task always has `_model_file_size` after
`prerun`, so the `hasattr` branch is taken).  A raised
`asyncio.CancelledError` is the `.error` result; everything the inner
`try` swallows becomes a `.ok` with no emission.
-/

structure TickInput where
  n : Nat
  t : ℚ
  cancel : Bool
  writeFails : Bool
deriving DecidableEq, Repr

/-- A successful progress write-back observed by the record store. -/
structure Emit where
  t : ℚ
  downloaded : Nat
  percent : ℚ
deriving DecidableEq, Repr

/-- The percentage computed by `_new_update` for cumulative bytes `d`:
`round((d / size) * 100, 2)`, then clamped to 100 (`if progress_percent
> 100: progress_percent = 100.0`).  Only meaningful for `size ≠ 0`;
`size = 0` raises `ZeroDivisionError` in the source, handled in
`newUpdate`. -/
def pctOf (size d : Nat) : ℚ :=
  let raw := pyRound2 ((d : ℚ) / (size : ℚ) * 100)
  if 100 < raw then 100 else raw

/-- Embedding of `_new_update` (model_file_manager.py lines 405-457),
after `_original_update` has advanced the bar to `i.n`.
Result: `.error ()` iff `asyncio.CancelledError` is raised; otherwise
`.ok (newLastUpdateTime, emitted write-back if any)`. -/
def newUpdate (initialD size : Nat) (last : ℚ) (i : TickInput) :
    Except Unit (ℚ × Option Emit) :=
  if i.cancel then
    -- `raise asyncio.CancelledError("Download cancelled")`
    .error ()
  else
    -- hasattr branch: total_size = _model_file_size,
    -- downloaded_size = _initial_downloaded_size + self.n
    let downloaded := initialD + i.n
    if size = 0 then
      -- ZeroDivisionError inside the try, caught and logged
      .ok (last, none)
    else
      let raw := pyRound2 ((downloaded : ℚ) / (size : ℚ) * 100)
      let percent := if 100 < raw then (100 : ℚ) else raw
      if size ≤ downloaded ∨ 2 ≤ i.t - last then
        if i.writeFails then
          -- exception in `_update_progress_func`, caught and logged;
          -- `_last_download_update_time` is not reassigned
          .ok (last, none)
        else
          .ok (i.t, some ⟨i.t, downloaded, percent⟩)
      else
        .ok (last, none)

/-- Run a sequence of ticks through `_new_update`, threading
`_last_download_update_time` and collecting the successful write-backs.
A raised `CancelledError` aborts the transfer, so no later tick runs. -/
def runTicks (initialD size : Nat) (last : ℚ) : List TickInput → List Emit
  | [] => []
  | i :: is =>
    match newUpdate initialD size last i with
    | .error _ => []
    | .ok (last', none) => runTicks initialD size last' is
    | .ok (last', some e) => e :: runTicks initialD size last' is

/-! ## `prerun`: the initial resume report

`prerun` (lines 271-301) computes `_initial_downloaded_size`, keeps
`_last_download_update_time = 0`, and emits one unclamped progress
write-back `round(initial/size*100, 2)` only when both the existing
size and the declared size are strictly positive.
-/

/-- The progress value written by `prerun` before any driver callback,
if any (`if self._initial_downloaded_size > 0 and self._model_file_size
> 0`). -/
def initialProgressReport (initialD size : Nat) : Option ℚ :=
  if 0 < initialD ∧ 0 < size then
    some (pyRound2 ((initialD : ℚ) / (size : ℚ) * 100))
  else
    none

/-- All progress percentages written back during one download episode,
in order: the optional initial resume report (throttle clock still 0),
then the callback write-backs. -/
def emittedPercents (initialD size : Nat) (ticks : List TickInput) : List ℚ :=
  (match initialProgressReport initialD size with
   | some p => [p]
   | none => []) ++ (runTicks initialD size 0 ticks).map Emit.percent

/-! ## The worker run (`ModelFileDownloadTask.run` / `_download_model_file`)

The external driver `downloaders.download_model` and the shared flag
become inputs: `cancelAtStart` is the flag at the pre-download
checkpoint (line 323), `result` the driver outcome, `cancelLate` the
flag at the post-download and exception-handler checkpoints (lines 337
and 354; the flag is monotone and these reads are adjacent).
-/

inductive DlResult where
  | success (paths : List String)
  | failure (msg : String)
  | cancelledError
deriving DecidableEq, Repr

structure WorkerInput where
  cancelAtStart : Bool
  result : DlResult
  cancelLate : Bool
deriving DecidableEq, Repr

/-- How `_download_model_file` terminates, as seen by `run`. -/
inductive WExit where
  | normal
  | raisedExc (msg : String)
  | raisedCancelled
deriving DecidableEq, Repr

/-- The success write of lines 342-347. -/
def readyUpd (paths : List String) : Upd :=
  { state := some .ready, downloadProgress := some 100, resolvedPaths := some paths }

/-- The failure write of lines 313-317. -/
def errorUpd (msg : String) : Upd :=
  { state := some .error, stateMessage := some msg }

/-- `_download_model_file` (lines 319-358): record writes, whether
worker-side cleanup (`_cleanup_downloaded_files`) ran, and the exit.
`asyncio.CancelledError` is a `BaseException`, so the `except
Exception` handler (and with it the cleanup call) does not see it. -/
def downloadModelFile (inp : WorkerInput) : List Upd × Bool × WExit :=
  if inp.cancelAtStart then
    -- checkpoint raises Exception("Download cancelled"); the handler
    -- sees the flag set, cleans up, and re-raises
    ([], true, .raisedExc "Download cancelled")
  else
    match inp.result with
    | .cancelledError => ([], false, .raisedCancelled)
    | .failure msg => ([], inp.cancelLate, .raisedExc msg)
    | .success paths =>
      if inp.cancelLate then
        -- late-cancel checkpoint: raise, clean up, re-raise; the
        -- success write is skipped
        ([], true, .raisedExc "Download cancelled")
      else
        ([readyUpd paths], false, .normal)

/-- The record writes `prerun` makes before the transfer: the lazily
probed size (`_ensure_model_file_size`, only when the record had none)
and the optional initial resume report. -/
def prerunWrites (sizeWasNone : Bool) (size initialD : Nat) : List Upd :=
  (if sizeWasNone then [{ size := some size }] else []) ++
  (match initialProgressReport initialD size with
   | some p => [{ downloadProgress := some p }]
   | none => [])

/-- `run` (lines 303-317): prerun, then the transfer; `except
asyncio.CancelledError` only logs, while `except Exception` writes the
terminal ERROR record itself.  Result: all record writes made from the
worker process, in order, and whether worker-side cleanup ran.  `run`
swallows every exception, so the pool future always completes. -/
def workerRun (sizeWasNone : Bool) (size initialD : Nat) (inp : WorkerInput) :
    List Upd × Bool :=
  let pw := prerunWrites sizeWasNone size initialD
  match downloadModelFile inp with
  | (dw, cleanup, .normal) => (pw ++ dw, cleanup)
  | (dw, cleanup, .raisedExc msg) => (pw ++ dw ++ [errorUpd msg], cleanup)
  | (dw, cleanup, .raisedCancelled) => (pw ++ dw, cleanup)

/-! ## The scheduler (`ModelFileManager`)

`_handle_model_file_event` filters by worker id and state and calls
`_create_download_task`, which is a no-op when the id already has an
entry in `_active_downloads`; a DELETED event pops the entry.
`spawnLog` records every `submit` to the process pool.
-/

inductive EventType where
  | created
  | updated
  | deleted
deriving DecidableEq, Repr

structure SchedState where
  active : List Nat
  spawnLog : List Nat
deriving DecidableEq, Repr

/-- State effect of one event on the active-download table
(`_handle_model_file_event` + `_create_download_task` +
`_handle_deletion`'s pop; the filesystem side of deletion is
`handleDeletion` below). -/
def handleEvent (selfWorkerId : Nat) (e : EventType) (mf : ModelFile)
    (s : SchedState) : SchedState :=
  if mf.workerId ≠ selfWorkerId then s
  else if e = .deleted then { s with active := s.active.erase mf.id }
  else if mf.state ≠ St.downloading then s
  else if mf.id ∈ s.active then s
  else { active := mf.id :: s.active, spawnLog := s.spawnLog ++ [mf.id] }

/-! ## Deletion and the filesystem

The filesystem is the list of existing paths.  Removing a directory
removes everything at or under it.
-/

/-- `re.sub(r"[^a-zA-Z0-9]", "_", name)` (computed on the character
list so that concrete instances reduce). -/
def sanitizeName (s : String) : String :=
  ⟨s.data.map (fun c => if c.isAlphanum then c else '_')⟩

/-- `p` is `dir` itself or lies underneath it. -/
def underDir (dir p : String) : Bool :=
  p == dir || (dir ++ "/").data.isPrefixOf p.data

/-- `_cleanup_orphaned_files` (lines 118-143): remove the `local_dir`
tree if it exists, then for an ollama-library source remove the
`<cache>/ollama/<sanitized>.part` temp file and the
`<cache>/ollama/<sanitized>` model file if present. -/
def cleanupOrphanedFiles (cacheDir : String) (mf : ModelFile)
    (fs : List String) : List String :=
  let fs1 := match mf.localDir with
    | some d => if d ∈ fs then fs.filter (fun p => ! underDir d p) else fs
    | none => fs
  if mf.sourceIsOllama then
    match mf.ollamaLibraryModelName with
    | some nm =>
      let modelPath := cacheDir ++ "/ollama/" ++ sanitizeName nm
      let fs2 :=
        if (modelPath ++ ".part") ∈ fs1 then
          fs1.filter (fun p => p != modelPath ++ ".part")
        else fs1
      if modelPath ∈ fs2 then fs2.filter (fun p => p != modelPath) else fs2
    | none => fs1
  else fs1

/-- `_delete_model_file` (lines 145-165): delete every resolved path;
an entry containing `*` expands through the `globExpand` oracle
(`glob.glob`), and `delete_path` removes a file or a whole tree. -/
def deleteModelFile (globExpand : String → List String) (mf : ModelFile)
    (fs : List String) : List String :=
  let targets := mf.resolvedPaths.flatMap
    (fun p => if p.data.contains '*' then globExpand p else [p])
  fs.filter (fun q => ! targets.any (fun tgt => underDir tgt q))

/-- `_handle_deletion` (lines 88-116) filesystem effect.  `isActive`:
the id had an entry in `_active_downloads` (the pop is in
`handleEvent`).  Orphan cleanup runs only for active downloads with a
local dir or resolved paths; `_delete_model_file` runs only when
`cleanup_on_delete` is set. -/
def handleDeletion (globExpand : String → List String) (cacheDir : String)
    (isActive : Bool) (mf : ModelFile) (fs : List String) : List String :=
  let fs1 :=
    if isActive ∧ (mf.localDir.isSome ∨ mf.resolvedPaths ≠ []) then
      cleanupOrphanedFiles cacheDir mf fs
    else fs
  if mf.cleanupOnDelete then deleteModelFile globExpand mf fs1 else fs1

/-! ## Resume-size computation (`_get_existing_file_size`, lines 205-269)

Filesystem primitives become a `FileSys` value; `os.path.getsize`
failures (`OSError`/`IOError`, caught per file with a warning) become
an `oracle`; any other exception inside the outer `try` (the reason the
outer `except` exists) becomes the `panic` input.
-/

structure FileSys where
  entries : List (String × Nat)
  dirs : List String
deriving DecidableEq, Repr

def FileSys.pathExists (fs : FileSys) (p : String) : Bool :=
  (fs.entries.lookup p).isSome

def FileSys.isFile (fs : FileSys) (p : String) : Bool :=
  fs.pathExists p && !(fs.dirs.contains p)

def FileSys.isDir (fs : FileSys) (p : String) : Bool :=
  fs.pathExists p && fs.dirs.contains p

/-- `os.walk(root)`: the regular files strictly under `root`. -/
def FileSys.walkFiles (fs : FileSys) (root : String) : List (String × Nat) :=
  fs.entries.filter (fun e =>
    (root ++ "/").data.isPrefixOf e.1.data && !(fs.dirs.contains e.1))

def getSize (fs : FileSys) (p : String) : Nat :=
  (fs.entries.lookup p).getD 0

/-- Sum `os.path.getsize` over files, skipping (with a logged warning)
each one whose getsize raises. -/
def sumSizes (oracle : String → Bool) (files : List (String × Nat)) : Nat :=
  files.foldl (fun acc e => if oracle e.1 then acc else acc + e.2) 0

/-- The body of the outer `try` of `_get_existing_file_size`. -/
def getExistingFileSizeBody (fs : FileSys) (oracle : String → Bool)
    (panic : Bool) (mf : ModelFile) : Except Unit Nat :=
  if panic then .error ()
  else
    let t1 : Nat :=
      match mf.localDir with
      | some d =>
        if fs.pathExists d then
          if mf.modelScopeFilePath = none ∧ mf.huggingfaceFilename = none then
            -- whole-directory download: walk and sum
            sumSizes oracle (fs.walkFiles d)
          else
            match mf.modelScopeFilePath with
            | some rel =>
              let fp := d ++ "/" ++ rel
              if fs.pathExists fp then (if oracle fp then 0 else getSize fs fp)
              else 0
            | none =>
              match mf.huggingfaceFilename with
              | some rel =>
                let fp := d ++ "/" ++ rel
                if fs.pathExists fp then (if oracle fp then 0 else getSize fs fp)
                else 0
              | none => 0
        else 0
      | none => 0
    let t2 : Nat :=
      mf.resolvedPaths.foldl (fun acc p =>
        if fs.pathExists p then
          if fs.isFile p then (if oracle p then acc else acc + getSize fs p)
          else if fs.isDir p then acc + sumSizes oracle (fs.walkFiles p)
          else acc
        else acc) 0
    .ok (t1 + t2)

/-- `_get_existing_file_size`: the outer `except Exception` maps any
escaping error to 0. -/
def getExistingFileSize (fs : FileSys) (oracle : String → Bool)
    (panic : Bool) (mf : ModelFile) : Nat :=
  match getExistingFileSizeBody fs oracle panic mf with
  | .ok n => n
  | .error _ => 0

/-! ### Evaluation helpers -/

theorem pyRound2_natCast (n : ℕ) : pyRound2 ((n : ℕ) : ℚ) = n := by
  have h : ((n : ℚ) * 100) = (((n * 100 : ℕ) : ℤ) : ℚ) := by push_cast; ring
  rw [pyRound2, h, rhe_intCast]
  push_cast
  ring

theorem pctOf_eq_of_div {size d k : ℕ} (h : (d : ℚ) / (size : ℚ) * 100 = (k : ℚ))
    (hk : (k : ℚ) ≤ 100) : pctOf size d = k := by
  rw [pctOf]
  simp only [h, pyRound2_natCast]
  rw [if_neg (not_lt.mpr hk)]

theorem pctOf_eq_hundred_of_div {size d k : ℕ}
    (h : (d : ℚ) / (size : ℚ) * 100 = (k : ℚ)) (hk : 100 < (k : ℚ)) :
    pctOf size d = 100 := by
  rw [pctOf]
  simp only [h, pyRound2_natCast]
  rw [if_pos hk]

/-! ### Structure of `_new_update` results -/

/-- Every successful write-back produced by `_new_update` carries the
clamped percentage of the tick's cumulative downloaded bytes, and the
throttle clock is reset to the tick's time. -/
theorem newUpdate_ok_some {initialD size : Nat} {last l' : ℚ} {i : TickInput} {e : Emit}
    (h : newUpdate initialD size last i = .ok (l', some e)) :
    e = ⟨i.t, initialD + i.n, pctOf size (initialD + i.n)⟩ ∧ l' = i.t ∧
      i.cancel = false ∧ i.writeFails = false ∧ size ≠ 0 ∧
      (size ≤ initialD + i.n ∨ 2 ≤ i.t - last) := by
  unfold newUpdate at h
  by_cases h1 : i.cancel = true
  · rw [if_pos h1] at h
    cases h
  · rw [if_neg h1] at h
    by_cases h2 : size = 0
    · rw [if_pos h2] at h
      simp at h
    · rw [if_neg h2] at h
      by_cases h4 : size ≤ initialD + i.n ∨ 2 ≤ i.t - last
      · rw [if_pos h4] at h
        by_cases h3 : i.writeFails = true
        · rw [if_pos h3] at h
          simp at h
        · rw [if_neg h3] at h
          simp only [Except.ok.injEq, Prod.mk.injEq] at h
          obtain ⟨hl, he⟩ := h
          refine ⟨?_, hl.symm, by simpa using h1, by simpa using h3, h2, h4⟩
          cases he
          simp [pctOf]
      · rw [if_neg h4] at h
        simp at h

/-- A tick that emits nothing leaves the throttle clock unchanged. -/
theorem newUpdate_ok_none {initialD size : Nat} {last l' : ℚ} {i : TickInput}
    (h : newUpdate initialD size last i = .ok (l', none)) : l' = last := by
  unfold newUpdate at h
  by_cases h1 : i.cancel = true
  · rw [if_pos h1] at h
    cases h
  · rw [if_neg h1] at h
    by_cases h2 : size = 0
    · rw [if_pos h2] at h
      simp at h
      exact h.symm
    · rw [if_neg h2] at h
      by_cases h4 : size ≤ initialD + i.n ∨ 2 ≤ i.t - last
      · rw [if_pos h4] at h
        by_cases h3 : i.writeFails = true
        · rw [if_pos h3] at h
          simp at h
          exact h.symm
        · rw [if_neg h3] at h
          simp at h
      · rw [if_neg h4] at h
        simp at h
        exact h.symm

/-- A tick whose cancellation flag is clear never raises: every other
outcome of the callback body (zero size, failing write, throttled) is
swallowed by the inner `try`. -/
theorem newUpdate_ok_of_not_cancel {initialD size : Nat} {last : ℚ} {i : TickInput}
    (hc : i.cancel = false) : ∃ p, newUpdate initialD size last i = .ok p := by
  unfold newUpdate
  rw [if_neg (by simp [hc])]
  by_cases h2 : size = 0
  · rw [if_pos h2]
    exact ⟨_, rfl⟩
  · rw [if_neg h2]
    by_cases h4 : size ≤ initialD + i.n ∨ 2 ≤ i.t - last
    · rw [if_pos h4]
      by_cases h3 : i.writeFails = true
      · rw [if_pos h3]
        exact ⟨_, rfl⟩
      · rw [if_neg h3]
        exact ⟨_, rfl⟩
    · rw [if_neg h4]
      exact ⟨_, rfl⟩

/-- A tick that passes all the guards produces exactly one write-back
carrying the clamped percentage and resets the throttle clock. -/
theorem newUpdate_emits {initialD size : Nat} {last : ℚ} {i : TickInput}
    (hc : i.cancel = false) (hw : i.writeFails = false) (hs : size ≠ 0)
    (hcond : size ≤ initialD + i.n ∨ 2 ≤ i.t - last) :
    newUpdate initialD size last i =
      .ok (i.t, some ⟨i.t, initialD + i.n, pctOf size (initialD + i.n)⟩) := by
  unfold newUpdate
  rw [if_neg (by simp [hc]), if_neg hs, if_pos hcond, if_neg (by simp [hw])]
  rfl

/-- A throttled tick (not final, window not elapsed) writes nothing and
leaves the clock alone. -/
theorem newUpdate_throttled {initialD size : Nat} {last : ℚ} {i : TickInput}
    (hc : i.cancel = false) (hs : size ≠ 0)
    (hcond : ¬(size ≤ initialD + i.n ∨ 2 ≤ i.t - last)) :
    newUpdate initialD size last i = .ok (last, none) := by
  unfold newUpdate
  rw [if_neg (by simp [hc]), if_neg hs, if_neg hcond]

/-- Every write-back in a tick trace is the clamped percentage of some
tick's cumulative downloaded bytes. -/
theorem runTicks_mem_shape {initialD size : Nat} :
    ∀ {is : List TickInput} {last : ℚ} {e : Emit},
      e ∈ runTicks initialD size last is →
      ∃ i ∈ is, e = ⟨i.t, initialD + i.n, pctOf size (initialD + i.n)⟩ := by
  intro is
  induction is with
  | nil => intro last e h; simp [runTicks] at h
  | cons i is ih =>
    intro last e h
    unfold runTicks at h
    cases hu : newUpdate initialD size last i with
    | error u => rw [hu] at h; simp at h
    | ok p =>
      obtain ⟨l', oe⟩ := p
      cases oe with
      | none =>
        rw [hu] at h
        obtain ⟨j, hj, hje⟩ := ih h
        exact ⟨j, List.mem_cons_of_mem _ hj, hje⟩
      | some e₀ =>
        rw [hu] at h
        rcases List.mem_cons.mp h with rfl | hrest
        · exact ⟨i, List.mem_cons_self _ _, (newUpdate_ok_some hu).1⟩
        · obtain ⟨j, hj, hje⟩ := ih hrest
          exact ⟨j, List.mem_cons_of_mem _ hj, hje⟩

/-- The first write-back of a trace that is not a final tick
(downloaded < size) happens at least 2 seconds after the stored
last-update time. -/
theorem runTicks_head_gap {initialD size : Nat} :
    ∀ {is : List TickInput} {last : ℚ} {e : Emit},
      (runTicks initialD size last is).head? = some e →
      e.downloaded < size → 2 ≤ e.t - last := by
  intro is
  induction is with
  | nil => intro last e h; simp [runTicks] at h
  | cons i is ih =>
    intro last e h hlt
    unfold runTicks at h
    cases hu : newUpdate initialD size last i with
    | error u => rw [hu] at h; simp at h
    | ok p =>
      obtain ⟨l', oe⟩ := p
      cases oe with
      | none =>
        rw [hu] at h
        have hl : l' = last := newUpdate_ok_none hu
        rw [hl] at h
        exact ih h hlt
      | some e₀ =>
        rw [hu] at h
        simp at h
        obtain ⟨he, -, -, -, -, hcond⟩ := newUpdate_ok_some hu
        subst h
        rw [he] at hlt ⊢
        simp at hlt ⊢
        rcases hcond with hfin | hgap
        · omega
        · exact hgap

/-- The clamp never lets a callback percentage exceed 100. -/
theorem pctOf_le_hundred (size d : Nat) : pctOf size d ≤ 100 := by
  simp only [pctOf]
  split_ifs with h
  · exact le_refl _
  · exact not_lt.mp h

/-- The clamped percentage is monotone in the downloaded byte count. -/
theorem pctOf_mono {size d₁ d₂ : Nat} (h : d₁ ≤ d₂) :
    pctOf size d₁ ≤ pctOf size d₂ := by
  have hc : (d₁ : ℚ) ≤ (d₂ : ℚ) := by exact_mod_cast h
  have hs : (0 : ℚ) ≤ (size : ℚ) := by positivity
  have hdiv : (d₁ : ℚ) / (size : ℚ) * 100 ≤ (d₂ : ℚ) / (size : ℚ) * 100 := by
    have h1 : (d₁ : ℚ) / (size : ℚ) ≤ (d₂ : ℚ) / (size : ℚ) :=
      div_le_div_of_nonneg_right hc hs
    linarith
  have hr := pyRound2_mono hdiv
  simp only [pctOf]
  split_ifs <;> linarith

/-- Consecutive write-backs of a trace are at least 2 seconds apart
unless the later one is a final tick (downloaded ≥ size). -/
theorem runTicks_chain_gap {initialD size : Nat} :
    ∀ (is : List TickInput) (last : ℚ),
      List.Chain' (fun a b => b.downloaded < size → 2 ≤ b.t - a.t)
        (runTicks initialD size last is) := by
  intro is
  induction is with
  | nil => intro last; simp [runTicks]
  | cons i is ih =>
    intro last
    unfold runTicks
    cases hu : newUpdate initialD size last i with
    | error u => simp
    | ok p =>
      obtain ⟨l', oe⟩ := p
      cases oe with
      | none => exact ih l'
      | some e₀ =>
        rw [List.chain'_cons']
        refine ⟨?_, ih l'⟩
        intro b hb hblt
        obtain ⟨he, hl, -⟩ := newUpdate_ok_some hu
        have := runTicks_head_gap hb hblt
        rw [hl] at this
        rw [he]
        exact this



/-! ## Claim theorems: progress reporting -/

/-- C10: an invocation of the patched progress callback raises if and
only if the cancellation flag is set at that invocation; exceptions
from the percentage computation (e.g. a zero declared size) or from the
record-store write are caught, so they never abort the transfer. -/
theorem progress_callback_raises_iff_cancelled (initialD size : Nat) (last : ℚ)
    (i : TickInput) :
    newUpdate initialD size last i = .error () ↔ i.cancel = true := by
  constructor
  · intro h
    by_contra hc
    have hc' : i.cancel = false := by simpa using hc
    obtain ⟨p, hp⟩ := newUpdate_ok_of_not_cancel hc'
    rw [hp] at h
    cases h
  · intro h
    unfold newUpdate
    rw [if_pos h]

/-- C8: during a download, consecutive callback write-backs are at
least 2 seconds apart unless the later one is a final tick
(cumulative downloaded ≥ declared size), and a final tick always
produces an immediate write-back. -/
theorem progress_writeback_throttle (initialD size : Nat) (hsize : 0 < size)
    (last : ℚ) (ticks : List TickInput) (i : TickInput)
    (hc : i.cancel = false) (hw : i.writeFails = false)
    (hfin : size ≤ initialD + i.n) :
    List.Chain' (fun a b => b.downloaded < size → 2 ≤ b.t - a.t)
      (runTicks initialD size last ticks) ∧
    newUpdate initialD size last i =
      .ok (i.t, some ⟨i.t, initialD + i.n, pctOf size (initialD + i.n)⟩) :=
  ⟨runTicks_chain_gap ticks last, newUpdate_emits hc hw (by omega) (Or.inl hfin)⟩

/-- Witness for C8 at a concrete trace and a concrete final tick. -/
theorem progress_writeback_throttle_witness :
    List.Chain' (fun a b => b.downloaded < 100 → 2 ≤ b.t - a.t)
      (runTicks 0 100 0 [⟨50, 5, false, false⟩, ⟨100, 6, false, false⟩]) ∧
    newUpdate 0 100 0 ⟨100, 6, false, false⟩ =
      .ok ((6 : ℚ), some ⟨6, 0 + 100, pctOf 100 (0 + 100)⟩) :=
  progress_writeback_throttle 0 100 (by norm_num) 0
    [⟨50, 5, false, false⟩, ⟨100, 6, false, false⟩] ⟨100, 6, false, false⟩
    rfl rfl (by norm_num)

/-- C6 counterexample: the initial resume report is *not* clamped.
With declared size 100 and 200 bytes already on disk, `prerun` writes
200 — a progress report exceeding 100. -/
theorem progress_clamp_initial_counterexample :
    initialProgressReport 200 100 = some 200 ∧ (100 : ℚ) < 200 := by
  constructor
  · rw [initialProgressReport, if_pos (by norm_num)]
    have h : ((200 : ℕ) : ℚ) / ((100 : ℕ) : ℚ) * 100 = ((200 : ℕ) : ℚ) := by
      norm_num
    rw [h, pyRound2_natCast]
    norm_num
  · norm_num

/-- C6 (amended): every *callback* write-back is clamped to at most
100; only the initial resume report can exceed 100. -/
theorem progress_callback_clamped (initialD size : Nat) (last : ℚ)
    (is : List TickInput) (e : Emit) (he : e ∈ runTicks initialD size last is) :
    e.percent ≤ 100 := by
  obtain ⟨i, -, rfl⟩ := runTicks_mem_shape he
  exact pctOf_le_hundred _ _

/-- Witness for the amended C6 at a concrete emitted write-back. -/
theorem progress_callback_clamped_witness :
    (Emit.mk 5 50 (pctOf 100 50)).percent ≤ 100 :=
  progress_callback_clamped 0 100 0 [⟨50, 5, false, false⟩] _ (by
    have h := @newUpdate_emits 0 100 0 ⟨50, 5, false, false⟩
      rfl rfl (by norm_num) (Or.inr (by norm_num))
    simp only [runTicks, h]
    exact List.mem_singleton.mpr rfl)

/-- C4 counterexample: with declared size 100 and 0 bytes on disk
(0 ≤ D ≤ S), `prerun` emits *no* initial report at all, so the claimed
report of `round(0/100*100, 2)` does not happen. -/
theorem initial_progress_zero_counterexample :
    initialProgressReport 0 100 ≠
      some (pyRound2 (((0 : ℕ) : ℚ) / ((100 : ℕ) : ℚ) * 100)) := by
  rw [initialProgressReport, if_neg (by simp)]
  simp

/-- C4 (amended): for 0 < D ≤ S the initial resume report is emitted,
equals `round(D/S*100, 2)`, and does not exceed 100. -/
theorem initial_progress_report_amended (D S : Nat) (hD : 0 < D) (hDS : D ≤ S) :
    initialProgressReport D S = some (pyRound2 ((D : ℚ) / (S : ℚ) * 100)) ∧
    pyRound2 ((D : ℚ) / (S : ℚ) * 100) ≤ 100 := by
  have hS : 0 < S := lt_of_lt_of_le hD hDS
  constructor
  · rw [initialProgressReport, if_pos ⟨hD, hS⟩]
  · apply pyRound2_le_hundred
    have hS' : (0 : ℚ) < (S : ℚ) := by exact_mod_cast hS
    have hq : (D : ℚ) / (S : ℚ) ≤ 1 := by
      rw [div_le_one hS']
      exact_mod_cast hDS
    linarith

/-- Witness for the amended C4 at D = 50, S = 100. -/
theorem initial_progress_report_amended_witness :
    initialProgressReport 50 100 =
      some (pyRound2 (((50 : ℕ) : ℚ) / ((100 : ℕ) : ℚ) * 100)) ∧
    pyRound2 (((50 : ℕ) : ℚ) / ((100 : ℕ) : ℚ) * 100) ≤ 100 :=
  initial_progress_report_amended 50 100 (by norm_num) (by norm_num)


/-- Write-backs of a trace whose ticks have non-decreasing cumulative
counters form a non-decreasing percentage sequence. -/
theorem runTicks_chain_mono {initialD size : Nat} :
    ∀ (is : List TickInput) (last : ℚ),
      List.Pairwise (fun a b => a.n ≤ b.n) is →
      List.Chain' (· ≤ ·) ((runTicks initialD size last is).map Emit.percent) := by
  intro is
  induction is with
  | nil => intro last _; simp [runTicks]
  | cons i is ih =>
    intro last hp
    obtain ⟨hi, hps⟩ := List.pairwise_cons.mp hp
    unfold runTicks
    cases hu : newUpdate initialD size last i with
    | error u => simp
    | ok p =>
      obtain ⟨l', oe⟩ := p
      cases oe with
      | none => exact ih l' hps
      | some e₀ =>
        simp only [List.map_cons]
        rw [List.chain'_cons']
        refine ⟨?_, ih l' hps⟩
        intro b hb
        have hb' : b ∈ (runTicks initialD size l' is).map Emit.percent :=
          List.mem_of_mem_head? hb
        obtain ⟨e, hemem, rfl⟩ := List.mem_map.mp hb'
        obtain ⟨j, hj, rfl⟩ := runTicks_mem_shape hemem
        obtain ⟨he₀, -⟩ := newUpdate_ok_some hu
        rw [he₀]
        exact pctOf_mono (by have := hi j hj; omega)

/-- C5 counterexample: the callback uses the *current bar's* counter
(`self.n`); when the driver opens a second progress bar the counter
resets, and a later write-back carries a lower percentage.  Trace: a
tick with n = 90 at t = 10, then a fresh bar's tick with n = 1 at
t = 13 (throttle window elapsed) — the store observes 90 then 1. -/
theorem progress_monotonicity_counterexample :
    runTicks 0 100 0 [⟨90, 10, false, false⟩, ⟨1, 13, false, false⟩] =
      [⟨10, 90, 90⟩, ⟨13, 1, 1⟩] ∧
    ¬ List.Chain' (fun a b => a.percent ≤ b.percent)
        (runTicks 0 100 0 [⟨90, 10, false, false⟩, ⟨1, 13, false, false⟩]) := by
  have h90 : pctOf 100 90 = ((90 : ℕ) : ℚ) :=
    pctOf_eq_of_div (by norm_num) (by norm_num)
  have h01 : pctOf 100 1 = ((1 : ℕ) : ℚ) :=
    pctOf_eq_of_div (by norm_num) (by norm_num)
  have e1 := @newUpdate_emits 0 100 0 ⟨90, 10, false, false⟩
    rfl rfl (by norm_num) (Or.inr (by norm_num))
  have e2 := @newUpdate_emits 0 100 10 ⟨1, 13, false, false⟩
    rfl rfl (by norm_num) (Or.inr (by norm_num))
  have hrun : runTicks 0 100 0 [⟨90, 10, false, false⟩, ⟨1, 13, false, false⟩] =
      [⟨10, 90, 90⟩, ⟨13, 1, 1⟩] := by
    simp only [runTicks, e1, e2]
    norm_num [h90, h01]
  refine ⟨hrun, ?_⟩
  rw [hrun]
  intro hch
  have := (List.chain'_cons.mp hch).1
  simp at this

/-- C5 (amended): if the driver's cumulative counter never decreases
across callback ticks (true while a single progress bar is live) and
the resumed size does not exceed the declared size, the whole
write-back sequence — initial resume report included — is
monotonically non-decreasing. -/
theorem progress_monotone_amended (initialD size : Nat) (hDS : initialD ≤ size)
    (ticks : List TickInput)
    (hmono : List.Pairwise (fun a b => a.n ≤ b.n) ticks) :
    List.Chain' (· ≤ ·) (emittedPercents initialD size ticks) := by
  unfold emittedPercents
  cases hin : initialProgressReport initialD size with
  | none => simpa using runTicks_chain_mono ticks 0 hmono
  | some p =>
    simp only [List.singleton_append]
    rw [List.chain'_cons']
    refine ⟨?_, runTicks_chain_mono ticks 0 hmono⟩
    intro b hb
    have hb' : b ∈ (runTicks initialD size 0 ticks).map Emit.percent :=
      List.mem_of_mem_head? hb
    obtain ⟨e, hemem, rfl⟩ := List.mem_map.mp hb'
    obtain ⟨j, hj, rfl⟩ := runTicks_mem_shape hemem
    unfold initialProgressReport at hin
    split_ifs at hin with hguard
    · obtain ⟨hD, hS⟩ := hguard
      injection hin with hin
      subst hin
      have hS' : (0 : ℚ) < (size : ℚ) := by exact_mod_cast hS
      have hple : pyRound2 ((initialD : ℚ) / (size : ℚ) * 100) ≤ 100 := by
        apply pyRound2_le_hundred
        have hq : (initialD : ℚ) / (size : ℚ) ≤ 1 := by
          rw [div_le_one hS']
          exact_mod_cast hDS
        linarith
      have hraw : pyRound2 ((initialD : ℚ) / (size : ℚ) * 100) ≤
          pyRound2 (((initialD + j.n : ℕ) : ℚ) / (size : ℚ) * 100) := by
        apply pyRound2_mono
        have hc : (initialD : ℚ) ≤ ((initialD + j.n : ℕ) : ℚ) := by
          exact_mod_cast Nat.le_add_right initialD j.n
        have hdv := div_le_div_of_nonneg_right hc (le_of_lt hS')
        linarith
      show _ ≤ pctOf size (initialD + j.n)
      simp only [pctOf]
      split_ifs with hlt
      · exact hple
      · exact hraw

/-- Witness for the amended C5: a resumed download at 50/100 with two
in-order ticks produces the non-decreasing sequence 50, 60, 90. -/
theorem progress_monotone_amended_witness :
    List.Chain' (· ≤ ·)
      (emittedPercents 50 100 [⟨10, 5, false, false⟩, ⟨40, 8, false, false⟩]) :=
  progress_monotone_amended 50 100 (by norm_num)
    [⟨10, 5, false, false⟩, ⟨40, 8, false, false⟩] (by
      rw [List.pairwise_cons]
      refine ⟨?_, ?_⟩
      · intro b hb
        simp at hb
        rw [hb]
        norm_num
      · simp)


/-! ## Claim theorems: worker, scheduler, deletion, resume size -/

/-- C1 counterexample: on an uncancelled successful download the worker
process itself writes the terminal record — state READY together with
resolved_paths — through the record-store interface
(`_download_model_file` lines 342-347). -/
theorem worker_writes_ready_counterexample :
    (workerRun false 100 0 ⟨false, .success ["p"], false⟩).1 = [readyUpd ["p"]] ∧
    (readyUpd ["p"]).state = some St.ready ∧
    (readyUpd ["p"]).resolvedPaths = some ["p"] :=
  ⟨rfl, rfl, rfl⟩

/-- C1 (amended): the worker's prerun writes carry only progress and
size, but the worker itself writes the terminal state: READY with
resolved_paths on uncancelled success, and ERROR with a state_message
on failure or checkpoint-detected cancellation (`run`, lines 313-317). -/
theorem worker_terminal_writes_amended (sizeWasNone : Bool) (size initialD : Nat)
    (inp : WorkerInput) :
    (∀ u ∈ prerunWrites sizeWasNone size initialD, u.progressOnly) ∧
    (∀ paths, inp.cancelAtStart = false → inp.cancelLate = false →
      inp.result = .success paths →
      (workerRun sizeWasNone size initialD inp).1 =
        prerunWrites sizeWasNone size initialD ++ [readyUpd paths]) ∧
    (inp.cancelAtStart = true →
      (workerRun sizeWasNone size initialD inp).1 =
        prerunWrites sizeWasNone size initialD ++ [errorUpd "Download cancelled"]) ∧
    (∀ msg, inp.cancelAtStart = false → inp.result = .failure msg →
      (workerRun sizeWasNone size initialD inp).1 =
        prerunWrites sizeWasNone size initialD ++ [errorUpd msg]) := by
  refine ⟨?_, ?_, ?_, ?_⟩
  · intro u hu
    unfold prerunWrites at hu
    rcases List.mem_append.mp hu with h | h
    · split_ifs at h with hw
      · simp at h
        subst h
        exact ⟨rfl, rfl, rfl⟩
      · simp at h
    · cases hip : initialProgressReport initialD size with
      | some p =>
        rw [hip] at h
        simp at h
        subst h
        exact ⟨rfl, rfl, rfl⟩
      | none =>
        rw [hip] at h
        simp at h
  · intro paths h1 h2 h3
    simp [workerRun, downloadModelFile, h1, h2, h3]
  · intro h1
    simp [workerRun, downloadModelFile, h1]
  · intro msg h1 h3
    simp [workerRun, downloadModelFile, h1, h3]

/-- Witness for the amended C1 at a concrete successful run. -/
theorem worker_terminal_writes_amended_witness :
    (workerRun false 100 0 ⟨false, .success ["p"], false⟩).1 =
      prerunWrites false 100 0 ++ [readyUpd ["p"]] :=
  (worker_terminal_writes_amended false 100 0 ⟨false, .success ["p"], false⟩).2.1
    ["p"] rfl rfl rfl

/-- C2: a cancel request that lands before the worker's success report
does discard the late success (no READY write) and does run cleanup,
but — against the claim — the record *is* written to ERROR with
state_message "Download cancelled": the checkpoint raises a plain
`Exception`, which `run`'s generic handler (line 313) treats as a
failure instead of reaching the dedicated CancelledError handler. -/
theorem cancelled_download_written_as_error :
    (workerRun false 100 0 ⟨false, .success ["p"], true⟩).1 =
      [errorUpd "Download cancelled"] ∧
    (errorUpd "Download cancelled").state = some St.error ∧
    (∀ u ∈ (workerRun false 100 0 ⟨false, .success ["p"], true⟩).1,
      u.state ≠ some St.ready) ∧
    (workerRun false 100 0 ⟨false, .success ["p"], true⟩).2 = true := by
  refine ⟨rfl, rfl, ?_, rfl⟩
  intro u hu
  have h : (workerRun false 100 0 ⟨false, .success ["p"], true⟩).1 =
      [errorUpd "Download cancelled"] := rfl
  rw [h] at hu
  have hu' : u = errorUpd "Download cancelled" := by simpa using hu
  subst hu'
  simp [errorUpd]

/-- C3: the active-download table keys stay duplicate-free under every
event, and a CREATED or UPDATED event for an id that already has an
ActiveTask is a strict no-op — same table, same spawn log, no second
worker. -/
theorem at_most_one_active_task (selfId : Nat) (s : SchedState) (mf : ModelFile)
    (hnd : s.active.Nodup) :
    (∀ e mf', (handleEvent selfId e mf' s).active.Nodup) ∧
    (∀ e, (e = .created ∨ e = .updated) → mf.id ∈ s.active →
      handleEvent selfId e mf s = s) := by
  constructor
  · intro e mf'
    unfold handleEvent
    split_ifs with hw hd hs hm
    · exact hnd
    · exact hnd.erase _
    · exact hnd
    · exact hnd
    · exact List.nodup_cons.mpr ⟨hm, hnd⟩
  · intro e he hmem
    have hne : e ≠ .deleted := by
      rcases he with rfl | rfl <;> simp
    unfold handleEvent
    split_ifs with hw hs
    · rfl
    · rfl
    · rfl

/-- Witness for C3: a duplicate CREATED event for the already-active
id 7 changes nothing, and the table stays duplicate-free. -/
theorem at_most_one_active_task_witness :
    handleEvent 0 .created
      ⟨7, 0, .downloading, none, none, none, [], false, false, none⟩
      ⟨[7], [7]⟩ = ⟨[7], [7]⟩ ∧
    (handleEvent 0 .created
      ⟨7, 0, .downloading, none, none, none, [], false, false, none⟩
      ⟨[7], [7]⟩).active.Nodup :=
  ⟨(at_most_one_active_task 0 ⟨[7], [7]⟩
      ⟨7, 0, .downloading, none, none, none, [], false, false, none⟩
      (by decide)).2 .created (Or.inl rfl) (by decide),
   (at_most_one_active_task 0 ⟨[7], [7]⟩
      ⟨7, 0, .downloading, none, none, none, [], false, false, none⟩
      (by decide)).1 .created _⟩

/-- C7 counterexample: deleting an *actively downloading* ollama item
with cleanup_on_delete = false still removes its resolved path: the
orphan cleanup (`_cleanup_orphaned_files`) deletes the ollama model
file unconditionally. -/
theorem cleanup_on_delete_false_counterexample :
    handleDeletion (fun _ => []) "c" true
      ⟨1, 0, .downloading, none, none, none, ["c/ollama/m"], false, true, some "m"⟩
      ["c/ollama/m"] = [] ∧
    (⟨1, 0, .downloading, none, none, none, ["c/ollama/m"], false, true,
      some "m"⟩ : ModelFile).cleanupOnDelete = false :=
  ⟨rfl, rfl⟩

/-- C7 (amended): deleting an item with cleanup_on_delete = false
leaves the filesystem untouched provided the item has no active
download at deletion time; when a download is active, the orphan
cleanup may remove local_dir's tree and ollama cache artifacts even
with cleanup_on_delete = false. -/
theorem cleanup_on_delete_false_amended (g : String → List String)
    (cacheDir : String) (mf : ModelFile) (fs : List String)
    (hcd : mf.cleanupOnDelete = false) :
    handleDeletion g cacheDir false mf fs = fs := by
  simp [handleDeletion, hcd]

/-- Witness for the amended C7. -/
theorem cleanup_on_delete_false_amended_witness :
    handleDeletion (fun _ => []) "c" false
      ⟨1, 0, .downloading, none, none, none, ["x"], false, false, none⟩
      ["x"] = ["x"] :=
  cleanup_on_delete_false_amended _ _ _ _ rfl

/-- C9: the resume-size computation is total — any unexpected error
maps to the result 0 via the outer handler, otherwise the body
completes normally (per-file getsize failures are consumed by the
inner handlers), and the result is a non-negative integer. -/
theorem get_existing_file_size_total (fs : FileSys) (oracle : String → Bool)
    (panic : Bool) (mf : ModelFile) :
    (0 : ℤ) ≤ (getExistingFileSize fs oracle panic mf : ℤ) ∧
    (panic = true → getExistingFileSize fs oracle panic mf = 0) ∧
    (panic = false →
      getExistingFileSizeBody fs oracle panic mf =
        .ok (getExistingFileSize fs oracle panic mf)) := by
  refine ⟨Int.ofNat_nonneg _, ?_, ?_⟩
  · intro hp
    subst hp
    rfl
  · intro hp
    subst hp
    obtain ⟨n, hn⟩ : ∃ n, getExistingFileSizeBody fs oracle false mf = .ok n := by
      unfold getExistingFileSizeBody
      simp only [Bool.false_eq_true, if_false]
      exact ⟨_, rfl⟩
    rw [hn]
    unfold getExistingFileSize
    rw [hn]

/-- Witness for C9 at a concrete filesystem and model file. -/
theorem get_existing_file_size_total_witness :
    getExistingFileSize ⟨[("a", 5)], []⟩ (fun _ => false) true
      ⟨1, 0, .downloading, some "d", none, none, ["a"], false, false, none⟩ = 0 ∧
    getExistingFileSizeBody ⟨[("a", 5)], []⟩ (fun _ => false) false
      ⟨1, 0, .downloading, some "d", none, none, ["a"], false, false, none⟩ =
      .ok (getExistingFileSize ⟨[("a", 5)], []⟩ (fun _ => false) false
        ⟨1, 0, .downloading, some "d", none, none, ["a"], false, false, none⟩) :=
  ⟨(get_existing_file_size_total _ _ _ _).2.1 rfl,
   (get_existing_file_size_total _ _ _ _).2.2 rfl⟩

end ModelFileManager
